import Mathlib

/-!
# ZoneMinder `zm_image.h`: buffer ownership, frame header operations, edge comparator

A shallow embedding of the inline code of `src/zm_image.h`:

* `AllocBuffer`, `DumpBuffer` (the buffer manager),
* `Image::DumpImgBuffer`, `Image::AllocImgBuffer`, `Image::Empty`, `Image::HoldBuffer`,
  `Image::CopyBuffer`, `Image::Clear`, `Image::Buffer(x,y)`,
* `Image::Edge::CompareYX`, `Image::Edge::CompareX`.

Conventions of the embedding.

* A pointer is a natural number, `0` is `NULL`.
* Memory is a map from addresses to byte values.
* A C `int` field is an `Int`; where the source converts it to an unsigned type the
  conversion is written out (`toUInt32`, `toSizeT`).
* Calls to deallocators are observable effects: every operation that may release returns the
  list of deallocator calls it made, in program order.
* `Fatal` and `Panic` terminate the process; an operation that reaches one returns
  `Except.error` and the statements after it are not run.
* A `double` is read as an exact rational number.
-/

namespace ZmImage

/-! ## Ownership tags (lines 41-45) -/

def ZM_BUFTYPE_DONTFREE : Int := 0
def ZM_BUFTYPE_MALLOC : Int := 1
def ZM_BUFTYPE_NEW : Int := 2
def ZM_BUFTYPE_AVMALLOC : Int := 3
def ZM_BUFTYPE_ZM : Int := 4

/-- One call to a deallocator, with the pointer passed to it. `av_free` is the allocator of the
external media library; the source names it only inside a comment of `DumpBuffer`. -/
inductive Release where
  | zm_freealigned (p : Nat)
  | free (p : Nat)
  | delete (p : Nat)
  | av_free (p : Nat)
  deriving DecidableEq, Repr

/-- Modelled from the spec: the macros `Fatal` and `Panic` are used by the header and defined
elsewhere (the logger). The spec has the allocation failure "fatal, process terminates" and the
size mismatch "checked, fatal in debug, defensive-abort in production", so neither returns to
its caller. These are the two ways a header operation can end the process. -/
inductive Failure where
  | Fatal
  | Panic
  deriving DecidableEq, Repr

/-! ## Buffer manager (lines 56-76) -/

/-- `AllocBuffer(p_bufsize)`. The allocator `zm_mallocaligned(alignment, size)` lives in
`zm_mem_utils.h`; it is a parameter here and returns `0` for `NULL`. -/
def AllocBuffer (zm_mallocaligned : Nat → Nat → Nat) (p_bufsize : Nat) : Except Failure Nat :=
  let buffer := zm_mallocaligned 16 p_bufsize
  if buffer = 0 then
    Except.error Failure.Fatal
  else
    Except.ok buffer

/-- `DumpBuffer(buffer, buffertype)`: the deallocator calls made. The branch for
`ZM_BUFTYPE_AVMALLOC` is commented out in the source, so that tag falls through. -/
def DumpBuffer (buffer : Nat) (buffertype : Int) : List Release :=
  if buffer ≠ 0 ∧ buffertype ≠ ZM_BUFTYPE_DONTFREE then
    if buffertype = ZM_BUFTYPE_ZM then
      [Release.zm_freealigned buffer]
    else if buffertype = ZM_BUFTYPE_MALLOC then
      [Release.free buffer]
    else if buffertype = ZM_BUFTYPE_NEW then
      [Release.delete buffer]
    else
      []
  else
    []

/-! ## The frame (lines 139-149) -/

/-- The instance fields of `class Image`. -/
structure Image where
  width : Int
  height : Int
  pixels : Int
  colours : Int
  size : Int
  subpixelorder : Int
  allocation : Nat
  buffer : Nat
  buffertype : Int
  holdbuffer : Int
  text : List Nat
  deriving DecidableEq, Repr

/-- Byte-addressed memory. -/
abbrev Mem := Nat → Nat

/-- Conversion of an `int` to `unsigned int` (32 bits). -/
def toUInt32 (i : Int) : Nat := (i % 2 ^ 32).toNat

/-- Conversion of an `int` to `size_t` (64 bits). -/
def toSizeT (i : Int) : Nat := (i % 2 ^ 64).toNat

/-- Modelled from the spec: `fptr_imgbufcpy` is an `extern` function pointer of the `memcpy`
shape whose target is not in the header; the spec calls its use a "whole-buffer copy". The
`n` bytes at `dst` receive the `n` bytes that stood at `src`; every other byte is kept. -/
def imgbufcpy (mem : Mem) (dst src n : Nat) : Mem :=
  fun a => if dst ≤ a ∧ a < dst + n then mem (src + (a - dst)) else mem a

/-- The C library `memset(dst, c, n)`. -/
def memset (mem : Mem) (dst : Nat) (c : Int) (n : Nat) : Mem :=
  fun a => if dst ≤ a ∧ a < dst + n then (c % 256).toNat else mem a

namespace Image

/-- `Image::DumpImgBuffer()` (lines 109-113). -/
def DumpImgBuffer (img : Image) : Image × List Release :=
  let released := DumpBuffer img.buffer img.buffertype
  ({ img with buffer := 0, allocation := 0 }, released)

/-- `Image::AllocImgBuffer(p_bufsize)` (lines 115-122). The deallocator calls made before the
allocation are returned also when the allocation ends in `Fatal`. -/
def AllocImgBuffer (zm_mallocaligned : Nat → Nat → Nat) (img : Image) (p_bufsize : Nat) :
    List Release × Except Failure Image :=
  let dumped := if img.buffer ≠ 0 then DumpImgBuffer img else (img, [])
  match AllocBuffer zm_mallocaligned p_bufsize with
  | Except.error f => (dumped.2, Except.error f)
  | Except.ok b =>
    (dumped.2,
      Except.ok { dumped.1 with buffer := b, buffertype := ZM_BUFTYPE_ZM, allocation := p_bufsize })

/-- `Image::Buffer(x, y)` (line 170): the address of `buffer[colours*((y*width)+x)]`. The
arguments are `unsigned int`, so the `int` fields are converted and the index is computed
modulo `2^32`. -/
def Buffer (img : Image) (x y : Nat) : Nat :=
  let row := (y * toUInt32 img.width) % 2 ^ 32
  let pixel := (row + x) % 2 ^ 32
  img.buffer + (toUInt32 img.colours * pixel) % 2 ^ 32

/-- `Image::IsBufferHeld()` (line 174). -/
def IsBufferHeld (img : Image) : Int := img.holdbuffer

/-- `Image::HoldBuffer(tohold)` (line 175). -/
def HoldBuffer (img : Image) (tohold : Int) : Image :=
  { img with holdbuffer := tohold }

/-- `Image::Empty()` (lines 177-182). -/
def Empty (img : Image) : Image × List Release :=
  let dumped := if img.holdbuffer = 0 then DumpImgBuffer img else (img, [])
  ({ dumped.1 with
      width := 0, height := 0, colours := 0, size := 0, pixels := 0, subpixelorder := 0 },
    dumped.2)

/-- `Image::CopyBuffer(image)` (lines 188-195), called on `self`. The result holds both frames
and the memory after the call. -/
def CopyBuffer (self image : Image) (mem : Mem) : Except Failure (Image × Image × Mem) :=
  if image.size ≠ self.size then
    Except.error Failure.Panic
  else
    Except.ok (self, image, imgbufcpy mem self.buffer image.buffer (toSizeT self.size))

/-- `Image::Clear()` (line 235). -/
def Clear (img : Image) (mem : Mem) : Image × Mem :=
  (img, memset mem img.buffer 0 (toSizeT img.size))

end Image

/-! ## Edges of the scan-conversion fill (lines 87-107) -/

/-- The fields of `struct Edge`. -/
structure Edge where
  min_y : Int
  max_y : Int
  min_x : ℚ
  _1_m : ℚ
  deriving DecidableEq

/-- The conversion `int(d)` of a `double`: truncation toward zero. -/
def truncToInt (q : ℚ) : Int := Int.tdiv q.num q.den

/-- Subtraction of two `int`s kept in 32 bits, two's complement. -/
def wrapInt32 (i : Int) : Int := (i + 2 ^ 31) % 2 ^ 32 - 2 ^ 31

namespace Edge

/-- `Edge::CompareYX(p1, p2)` (lines 94-101). -/
def CompareYX (e1 e2 : Edge) : Int :=
  if e1.min_y = e2.min_y then
    truncToInt (e1.min_x - e2.min_x)
  else
    wrapInt32 (e1.min_y - e2.min_y)

/-- `Edge::CompareX(p1, p2)` (lines 102-106). -/
def CompareX (e1 e2 : Edge) : Int :=
  truncToInt (e1.min_x - e2.min_x)

end Edge

/-! ## Auxiliary notions used by the statements -/

/-- The frame after `n` successive calls of `DumpImgBuffer`, with all deallocator calls made,
in program order. -/
def DumpImgBufferN : Nat → Image → Image × List Release
  | 0, img => (img, [])
  | n + 1, img =>
    let first := img.DumpImgBuffer
    let rest := DumpImgBufferN n first.1
    (rest.1, first.2 ++ rest.2)

/-- The frame invariant of the data model: a frame with a buffer has
`size = width * height * colours`, and a frame of size `0` has no buffer. -/
def FrameInvariant (img : Image) : Prop :=
  (img.buffer ≠ 0 → img.size = img.width * img.height * img.colours) ∧
  (img.size = 0 → img.buffer = 0)

instance (img : Image) : Decidable (FrameInvariant img) := by
  unfold FrameInvariant; infer_instance

/-- The values a C `int` can hold. -/
def IsInt32 (i : Int) : Prop := -2 ^ 31 ≤ i ∧ i < 2 ^ 31

instance (i : Int) : Decidable (IsInt32 i) := by
  unfold IsInt32; infer_instance

/-- A frame used as concrete input: one grey pixel in an engine-owned buffer at address
`4096`, with the held flag given. -/
def sampleFrame (hold : Int) : Image :=
  { width := 1, height := 1, pixels := 1, colours := 1, size := 1, subpixelorder := 0,
    allocation := 1, buffer := 4096, buffertype := ZM_BUFTYPE_ZM, holdbuffer := hold,
    text := [] }

/-- An edge used as concrete input: it starts on row `y` at abscissa `x` and spans one row. -/
def edgeAt (y : Int) (x : ℚ) : Edge :=
  { min_y := y, max_y := y + 1, min_x := x, _1_m := 0 }

/-! ## The buffer manager -/

theorem DumpBuffer_null (buffertype : Int) : DumpBuffer 0 buffertype = [] := by
  simp [DumpBuffer]

theorem DumpBuffer_dontfree (buffer : Nat) : DumpBuffer buffer ZM_BUFTYPE_DONTFREE = [] := by
  simp [DumpBuffer]

theorem DumpBuffer_length_le_one (buffer : Nat) (buffertype : Int) :
    (DumpBuffer buffer buffertype).length ≤ 1 := by
  unfold DumpBuffer
  split_ifs <;> simp

/-- C1, as stated, fails: a non-null buffer tagged `ZM_BUFTYPE_AVMALLOC` is not released at
all, so in particular not through `av_free`. -/
theorem DumpBuffer_avmalloc_counterexample :
    DumpBuffer 4096 ZM_BUFTYPE_AVMALLOC = [] ∧
    ¬ (∀ buffer : Nat, buffer ≠ 0 →
        DumpBuffer buffer ZM_BUFTYPE_MALLOC = [Release.free buffer] ∧
        DumpBuffer buffer ZM_BUFTYPE_NEW = [Release.delete buffer] ∧
        DumpBuffer buffer ZM_BUFTYPE_AVMALLOC = [Release.av_free buffer] ∧
        DumpBuffer buffer ZM_BUFTYPE_ZM = [Release.zm_freealigned buffer]) := by
  refine ⟨by decide, fun h => ?_⟩
  have h3 := (h 4096 (by decide)).2.2.1
  revert h3
  decide

/-- C1, amended: for a non-null buffer `DumpBuffer` makes exactly one deallocator call, on that
buffer, through `free` for `ZM_BUFTYPE_MALLOC`, `delete` for `ZM_BUFTYPE_NEW` and
`zm_freealigned` for `ZM_BUFTYPE_ZM`; for `ZM_BUFTYPE_AVMALLOC` it makes no call. -/
theorem DumpBuffer_owning_tags (buffer : Nat) (h : buffer ≠ 0) :
    DumpBuffer buffer ZM_BUFTYPE_MALLOC = [Release.free buffer] ∧
    DumpBuffer buffer ZM_BUFTYPE_NEW = [Release.delete buffer] ∧
    DumpBuffer buffer ZM_BUFTYPE_ZM = [Release.zm_freealigned buffer] ∧
    DumpBuffer buffer ZM_BUFTYPE_AVMALLOC = [] := by
  simp [DumpBuffer, h, ZM_BUFTYPE_MALLOC, ZM_BUFTYPE_NEW, ZM_BUFTYPE_ZM, ZM_BUFTYPE_AVMALLOC,
    ZM_BUFTYPE_DONTFREE]

theorem DumpBuffer_owning_tags_witness :
    (4096 : Nat) ≠ 0 ∧
    DumpBuffer 4096 ZM_BUFTYPE_MALLOC = [Release.free 4096] ∧
    DumpBuffer 4096 ZM_BUFTYPE_NEW = [Release.delete 4096] ∧
    DumpBuffer 4096 ZM_BUFTYPE_ZM = [Release.zm_freealigned 4096] ∧
    DumpBuffer 4096 ZM_BUFTYPE_AVMALLOC = [] :=
  ⟨by decide, DumpBuffer_owning_tags 4096 (by decide)⟩

/-- C2: `DumpBuffer` makes no deallocator call when the buffer is null, whatever the tag, nor
when the tag is `ZM_BUFTYPE_DONTFREE`, whatever the buffer; hence `DumpImgBuffer` on a frame
tagged `ZM_BUFTYPE_DONTFREE` makes none. -/
theorem DumpBuffer_no_release (img : Image) (h : img.buffertype = ZM_BUFTYPE_DONTFREE) :
    (∀ buffertype : Int, DumpBuffer 0 buffertype = []) ∧
    (∀ buffer : Nat, DumpBuffer buffer ZM_BUFTYPE_DONTFREE = []) ∧
    img.DumpImgBuffer.2 = [] := by
  refine ⟨DumpBuffer_null, DumpBuffer_dontfree, ?_⟩
  simp [Image.DumpImgBuffer, h, DumpBuffer_dontfree]

theorem DumpBuffer_no_release_witness :
    ({ sampleFrame 0 with buffertype := ZM_BUFTYPE_DONTFREE } : Image).buffertype
        = ZM_BUFTYPE_DONTFREE ∧
    ((∀ buffertype : Int, DumpBuffer 0 buffertype = []) ∧
      (∀ buffer : Nat, DumpBuffer buffer ZM_BUFTYPE_DONTFREE = []) ∧
      ({ sampleFrame 0 with buffertype := ZM_BUFTYPE_DONTFREE } : Image).DumpImgBuffer.2 = []) :=
  ⟨rfl, DumpBuffer_no_release _ rfl⟩

/-! ## `DumpImgBuffer` -/

theorem DumpImgBuffer_twice (img : Image) :
    img.DumpImgBuffer.1.DumpImgBuffer = (img.DumpImgBuffer.1, []) := by
  simp [Image.DumpImgBuffer, DumpBuffer_null]

theorem DumpImgBufferN_of_null (n : Nat) (img : Image) (h : img.buffer = 0)
    (ha : img.allocation = 0) : DumpImgBufferN n img = (img, []) := by
  induction n with
  | zero => rfl
  | succ k ih =>
    have hstep : img.DumpImgBuffer = (img, []) := by
      cases img
      simp only [Image.DumpImgBuffer] at *
      subst h ha
      simp [DumpBuffer_null]
    simp [DumpImgBufferN, hstep, ih]

/-- C10: after one `DumpImgBuffer` the frame has a null buffer and allocation `0`; a second
`DumpImgBuffer` makes no deallocator call and leaves the frame as it is; and any number of
successive calls makes the deallocator calls of the first one only, which are at most one. -/
theorem DumpImgBuffer_releases_once (img : Image) (n : Nat) :
    img.DumpImgBuffer.1.buffer = 0 ∧
    img.DumpImgBuffer.1.allocation = 0 ∧
    img.DumpImgBuffer.1.DumpImgBuffer = (img.DumpImgBuffer.1, []) ∧
    DumpImgBufferN (n + 1) img = img.DumpImgBuffer ∧
    (DumpImgBufferN (n + 1) img).2 = DumpBuffer img.buffer img.buffertype ∧
    (DumpImgBufferN (n + 1) img).2.length ≤ 1 := by
  have hN : DumpImgBufferN (n + 1) img = img.DumpImgBuffer := by
    simp [DumpImgBufferN, DumpImgBufferN_of_null n img.DumpImgBuffer.1 rfl rfl]
  refine ⟨rfl, rfl, DumpImgBuffer_twice img, hN, ?_, ?_⟩
  · rw [hN]; rfl
  · rw [hN]; exact DumpBuffer_length_le_one _ _

/-! ## Discarding the current buffer: `Empty` and `AllocImgBuffer` -/

theorem Empty_released (img : Image) :
    img.Empty.2 = if img.holdbuffer = 0 then DumpBuffer img.buffer img.buffertype else [] := by
  unfold Image.Empty
  split_ifs <;> simp [Image.DumpImgBuffer]

theorem AllocImgBuffer_released (zm_mallocaligned : Nat → Nat → Nat) (img : Image) (n : Nat) :
    (Image.AllocImgBuffer zm_mallocaligned img n).1 =
      if img.buffer ≠ 0 then DumpBuffer img.buffer img.buffertype else [] := by
  unfold Image.AllocImgBuffer
  cases AllocBuffer zm_mallocaligned n <;> split_ifs <;> simp_all [Image.DumpImgBuffer]

/-- C4, as stated, fails for `AllocImgBuffer`: on a held frame (`holdbuffer = 1`) with a
non-null engine-owned buffer it calls `zm_freealigned` on that buffer. -/
theorem AllocImgBuffer_held_counterexample :
    (sampleFrame 1).buffer ≠ 0 ∧ (sampleFrame 1).holdbuffer ≠ 0 ∧
    (Image.AllocImgBuffer (fun _ _ => 8192) (sampleFrame 1) 16).1
      = [Release.zm_freealigned 4096] ∧
    (Image.AllocImgBuffer (fun _ _ => 8192) (sampleFrame 1) 16).1 ≠ [] := by
  decide

/-- C4, amended: on a frame with a non-null buffer, `Empty` makes the deallocator calls of
`DumpBuffer` on the frame's buffer and recorded tag when `holdbuffer` is `0` and none when it is
not; `AllocImgBuffer` makes those calls whatever `holdbuffer` is. -/
theorem discard_releases_previous_buffer (zm_mallocaligned : Nat → Nat → Nat) (img : Image)
    (n : Nat) (h : img.buffer ≠ 0) :
    (img.holdbuffer = 0 → img.Empty.2 = DumpBuffer img.buffer img.buffertype) ∧
    (img.holdbuffer ≠ 0 → img.Empty.2 = []) ∧
    (Image.AllocImgBuffer zm_mallocaligned img n).1 = DumpBuffer img.buffer img.buffertype := by
  refine ⟨fun h0 => ?_, fun h1 => ?_, ?_⟩
  · rw [Empty_released, if_pos h0]
  · rw [Empty_released, if_neg h1]
  · rw [AllocImgBuffer_released, if_pos h]

theorem discard_releases_previous_buffer_witness :
    (sampleFrame 0).buffer ≠ 0 ∧
    ((sampleFrame 0).holdbuffer = 0 →
      (sampleFrame 0).Empty.2 = DumpBuffer (sampleFrame 0).buffer (sampleFrame 0).buffertype) ∧
    ((sampleFrame 0).holdbuffer ≠ 0 → (sampleFrame 0).Empty.2 = []) ∧
    (Image.AllocImgBuffer (fun _ _ => 8192) (sampleFrame 0) 16).1
      = DumpBuffer (sampleFrame 0).buffer (sampleFrame 0).buffertype :=
  ⟨by decide, discard_releases_previous_buffer (fun _ _ => 8192) (sampleFrame 0) 16 (by decide)⟩

/-! ## `AllocImgBuffer` -/

theorem AllocImgBuffer_result (zm_mallocaligned : Nat → Nat → Nat) (img : Image) (n : Nat) :
    (Image.AllocImgBuffer zm_mallocaligned img n).2 =
      if zm_mallocaligned 16 n = 0 then Except.error Failure.Fatal
      else Except.ok { img with
        buffer := zm_mallocaligned 16 n, buffertype := ZM_BUFTYPE_ZM, allocation := n } := by
  unfold Image.AllocImgBuffer AllocBuffer
  by_cases hp : zm_mallocaligned 16 n = 0
  · simp [hp]
  · by_cases hb : img.buffer = 0 <;> simp [hp, hb, Image.DumpImgBuffer]

/-- C5: `AllocImgBuffer(n)` ends in `Fatal` exactly when `zm_mallocaligned(16, n)` returns
null, and ends in no other failure; when the allocator returns a non-null pointer the frame
afterwards has that pointer as buffer, tag `ZM_BUFTYPE_ZM`, allocation `n`, and every other
field as before. -/
theorem AllocImgBuffer_spec (zm_mallocaligned : Nat → Nat → Nat) (img : Image) (n : Nat) :
    (∀ f : Failure, (Image.AllocImgBuffer zm_mallocaligned img n).2 = Except.error f ↔
        (f = Failure.Fatal ∧ zm_mallocaligned 16 n = 0)) ∧
    (zm_mallocaligned 16 n ≠ 0 →
      ∃ img2 : Image, (Image.AllocImgBuffer zm_mallocaligned img n).2 = Except.ok img2 ∧
        img2.buffer = zm_mallocaligned 16 n ∧ img2.buffer ≠ 0 ∧
        img2.buffertype = ZM_BUFTYPE_ZM ∧ img2.allocation = n ∧
        img2.width = img.width ∧ img2.height = img.height ∧ img2.colours = img.colours ∧
        img2.size = img.size ∧ img2.subpixelorder = img.subpixelorder ∧
        img2.holdbuffer = img.holdbuffer ∧ img2.pixels = img.pixels ∧ img2.text = img.text) := by
  constructor
  · intro f
    rw [AllocImgBuffer_result]
    by_cases hp : zm_mallocaligned 16 n = 0
    · simp only [hp, if_true, and_true]
      constructor
      · intro h; injection h with h; exact h.symm
      · intro h; rw [h]
    · simp [hp]
  · intro hp
    refine ⟨{ img with
        buffer := zm_mallocaligned 16 n, buffertype := ZM_BUFTYPE_ZM, allocation := n },
      by rw [AllocImgBuffer_result, if_neg hp], rfl, hp, rfl, rfl, rfl, rfl, rfl, rfl,
      rfl, rfl, rfl, rfl⟩

theorem AllocImgBuffer_spec_witness :
    ((fun _ _ => 8192 : Nat → Nat → Nat) 16 16 ≠ 0) ∧
    (∃ img2 : Image,
      (Image.AllocImgBuffer (fun _ _ => 8192) (sampleFrame 1) 16).2 = Except.ok img2 ∧
      img2.buffer = 8192 ∧ img2.buffertype = ZM_BUFTYPE_ZM ∧ img2.allocation = 16 ∧
      img2.size = 1 ∧ img2.holdbuffer = 1) ∧
    (Image.AllocImgBuffer (fun _ _ => 0) (sampleFrame 1) 16).2 = Except.error Failure.Fatal := by
  refine ⟨by decide, ?_, ?_⟩
  · obtain ⟨img2, h, hb, -, ht, ha, -, -, -, hs, -, hh, -⟩ :=
      (AllocImgBuffer_spec (fun _ _ => 8192) (sampleFrame 1) 16).2 (by decide)
    exact ⟨img2, h, hb, ht, ha, hs, hh⟩
  · exact ((AllocImgBuffer_spec (fun _ _ => 0) (sampleFrame 1) 16).1 Failure.Fatal).2 ⟨rfl, rfl⟩

/-! ## `CopyBuffer` -/

theorem toSizeT_of_int32 (i : Int) (n : Nat) (h : IsInt32 i) (hn : (n : Int) < i) :
    n < toSizeT i := by
  unfold IsInt32 at h
  unfold toSizeT
  have h0 : (0 : Int) ≤ i := by omega
  have hlt : i < 2 ^ 64 := by omega
  rw [Int.emod_eq_of_lt h0 hlt]
  omega

theorem imgbufcpy_dst (mem : Mem) (dst src n i : Nat) (h : i < n) :
    imgbufcpy mem dst src n (dst + i) = mem (src + i) := by
  simp [imgbufcpy, h]

theorem imgbufcpy_outside (mem : Mem) (dst src n a : Nat) (h : a < dst ∨ dst + n ≤ a) :
    imgbufcpy mem dst src n a = mem a := by
  unfold imgbufcpy
  rw [if_neg]
  omega

/-- C3: `CopyBuffer` ends in `Panic`, and in no other failure, exactly when the two sizes
differ. When they are equal it returns, both frames are as before in every field, and each of
the first `size` bytes of this frame's buffer holds what the byte at the same offset of the
other frame's buffer held; when the two buffers are the same or do not overlap, the two byte
ranges are equal after the call. -/
theorem CopyBuffer_spec (self image : Image) (mem : Mem) (hsize : IsInt32 self.size) :
    (∀ f : Failure, self.CopyBuffer image mem = Except.error f ↔
        (f = Failure.Panic ∧ image.size ≠ self.size)) ∧
    (image.size = self.size →
      ∃ mem2 : Mem, self.CopyBuffer image mem = Except.ok (self, image, mem2) ∧
        (∀ i : Nat, (i : Int) < self.size → mem2 (self.buffer + i) = mem (image.buffer + i)) ∧
        ((self.buffer = image.buffer ∨ self.buffer + toSizeT self.size ≤ image.buffer ∨
            image.buffer + toSizeT self.size ≤ self.buffer) →
          ∀ i : Nat, (i : Int) < self.size →
            mem2 (self.buffer + i) = mem2 (image.buffer + i))) := by
  constructor
  · intro f
    unfold Image.CopyBuffer
    by_cases hs : image.size = self.size
    · simp [hs]
    · simp only [ne_eq, hs, not_false_eq_true, if_true, and_true]
      constructor
      · intro h; injection h with h; exact h.symm
      · intro h; rw [h]
  · intro hs
    refine ⟨imgbufcpy mem self.buffer image.buffer (toSizeT self.size), ?_, ?_, ?_⟩
    · simp [Image.CopyBuffer, hs]
    · intro i hi
      exact imgbufcpy_dst _ _ _ _ _ (toSizeT_of_int32 _ _ hsize hi)
    · intro hsep i hi
      have hlt := toSizeT_of_int32 _ _ hsize hi
      rw [imgbufcpy_dst _ _ _ _ _ hlt]
      rcases hsep with heq | hsep | hsep
      · rw [← heq, imgbufcpy_dst _ _ _ _ _ hlt, heq]
      · rw [imgbufcpy_outside]; omega
      · rw [imgbufcpy_outside]; omega

theorem CopyBuffer_spec_witness :
    IsInt32 (sampleFrame 0).size ∧
    ∃ mem2 : Mem,
      (sampleFrame 0).CopyBuffer { sampleFrame 1 with buffer := 8192 } (fun a => a % 7)
        = Except.ok (sampleFrame 0, { sampleFrame 1 with buffer := 8192 }, mem2) ∧
      mem2 4096 = 2 := by
  refine ⟨by decide, ?_⟩
  obtain ⟨mem2, hok, hbytes, -⟩ :=
    (CopyBuffer_spec (sampleFrame 0) { sampleFrame 1 with buffer := 8192 } (fun a => a % 7)
      (by decide)).2 (by decide)
  exact ⟨mem2, hok, hbytes 0 (by decide)⟩

/-! ## The frame invariant -/

theorem FrameInvariant_HoldBuffer (img : Image) (tohold : Int) (h : FrameInvariant img) :
    FrameInvariant (img.HoldBuffer tohold) := h

theorem FrameInvariant_Clear (img : Image) (mem : Mem) (h : FrameInvariant img) :
    FrameInvariant (img.Clear mem).1 := h

theorem FrameInvariant_Empty_iff (img : Image) :
    FrameInvariant img.Empty.1 ↔ (img.holdbuffer = 0 ∨ img.buffer = 0) := by
  unfold Image.Empty FrameInvariant
  by_cases hh : img.holdbuffer = 0
  · simp [hh, Image.DumpImgBuffer]
  · simp [hh]

/-- C8, as stated, fails for `Empty`: a held frame with a buffer satisfies the invariant, and
after `Empty()` its size is `0` while its buffer is still the non-null one. -/
theorem Empty_held_breaks_invariant :
    FrameInvariant (sampleFrame 1) ∧ ¬ FrameInvariant (sampleFrame 1).Empty.1 ∧
    (sampleFrame 1).Empty.1.size = 0 ∧ (sampleFrame 1).Empty.1.buffer = 4096 := by
  decide

/-- C8, amended: for a frame satisfying the invariant, the frame after `HoldBuffer`, after
`Clear` and after a `CopyBuffer` that returns (which it does exactly when the sizes agree, on
either side of the copy) satisfies it; the frame after `Empty` satisfies it exactly when the
frame was not held or had no buffer. -/
theorem FrameInvariant_preserved (img other : Image) (tohold : Int) (mem : Mem)
    (h : FrameInvariant img) :
    FrameInvariant (img.HoldBuffer tohold) ∧
    FrameInvariant (img.Clear mem).1 ∧
    (other.size = img.size →
      ∃ r : Image × Image × Mem, img.CopyBuffer other mem = Except.ok r ∧
        FrameInvariant r.1) ∧
    (img.size = other.size →
      ∃ r : Image × Image × Mem, other.CopyBuffer img mem = Except.ok r ∧
        FrameInvariant r.2.1) ∧
    (FrameInvariant img.Empty.1 ↔ (img.holdbuffer = 0 ∨ img.buffer = 0)) := by
  refine ⟨FrameInvariant_HoldBuffer img tohold h, FrameInvariant_Clear img mem h, ?_, ?_,
    FrameInvariant_Empty_iff img⟩
  · intro hs
    exact ⟨(img, other, imgbufcpy mem img.buffer other.buffer (toSizeT img.size)),
      by simp [Image.CopyBuffer, hs], h⟩
  · intro hs
    exact ⟨(other, img, imgbufcpy mem other.buffer img.buffer (toSizeT other.size)),
      by simp [Image.CopyBuffer, hs], h⟩

theorem FrameInvariant_preserved_witness :
    FrameInvariant (sampleFrame 0) ∧
    FrameInvariant ((sampleFrame 0).HoldBuffer 1) ∧
    FrameInvariant ((sampleFrame 0).Clear (fun _ => 255)).1 ∧
    FrameInvariant (sampleFrame 0).Empty.1 := by
  have h := FrameInvariant_preserved (sampleFrame 0) (sampleFrame 1) 1 (fun _ => 255) (by decide)
  exact ⟨by decide, h.1, h.2.1, h.2.2.2.2.2 (Or.inl rfl)⟩

/-! ## `Buffer(x, y)`: the byte layout -/

theorem pixel_index_lt (W H x y : Nat) (hx : x < W) (hy : y < H) : y * W + x < H * W := by
  have h1 : (y + 1) * W ≤ H * W := Nat.mul_le_mul_right W hy
  have h2 : (y + 1) * W = y * W + W := by ring
  omega

theorem pixel_index_row_lt (W x y x2 y2 : Nat) (hx : x < W) (hy : y < y2) :
    y * W + x + 1 ≤ y2 * W + x2 := by
  have h1 : (y + 1) * W ≤ y2 * W := Nat.mul_le_mul_right W hy
  have h2 : (y + 1) * W = y * W + W := by ring
  omega

theorem pixel_index_apart (W x y x2 y2 : Nat) (hx : x < W) (hx2 : x2 < W)
    (hne : (x, y) ≠ (x2, y2)) :
    y * W + x + 1 ≤ y2 * W + x2 ∨ y2 * W + x2 + 1 ≤ y * W + x := by
  rcases Nat.lt_trichotomy y y2 with hy | hy | hy
  · exact Or.inl (pixel_index_row_lt W x y x2 y2 hx hy)
  · subst hy
    have hxx : x ≠ x2 := fun hxx => hne (by rw [hxx])
    omega
  · exact Or.inr (pixel_index_row_lt W x2 y2 x y hx2 hy)

theorem Buffer_offset (img : Image) (W H C x y : Nat) (hW : img.width = W)
    (hC : img.colours = C) (hCpos : 0 < C) (hfit : W * H * C < 2 ^ 31) (hx : x < W)
    (hy : y < H) :
    img.Buffer x y = img.buffer + C * (y * W + x) ∧ C * (y * W + x) + C ≤ W * H * C := by
  have hp : y * W + x < H * W := pixel_index_lt W H x y hx hy
  have hle : C * (y * W + x) + C ≤ W * H * C := by
    have h1 : C * (y * W + x + 1) ≤ C * (H * W) := Nat.mul_le_mul_left C hp
    have h2 : C * (y * W + x + 1) = C * (y * W + x) + C := by ring
    have h3 : C * (H * W) = W * H * C := by ring
    omega
  have hWH : H * W ≤ W * H * C := by
    have := Nat.mul_le_mul_left (W * H) hCpos
    have h3 : H * W = W * H * 1 := by ring
    omega
  have hCle : C ≤ W * H * C := by omega
  have hWle : W ≤ H * W := by
    have : 1 * W ≤ H * W := Nat.mul_le_mul_right W (by omega)
    omega
  have hwU : toUInt32 img.width = W := by
    unfold toUInt32
    rw [hW, Int.emod_eq_of_lt (by omega) (by omega)]
    simp
  have hcU : toUInt32 img.colours = C := by
    unfold toUInt32
    rw [hC, Int.emod_eq_of_lt (by omega) (by omega)]
    simp
  refine ⟨?_, hle⟩
  unfold Image.Buffer
  simp only [hwU, hcU]
  have hrow : y * W < 2 ^ 32 := by omega
  rw [Nat.mod_eq_of_lt hrow, Nat.mod_eq_of_lt (by omega : y * W + x < 2 ^ 32),
    Nat.mod_eq_of_lt (by omega : C * (y * W + x) < 2 ^ 32)]

/-- C9: in a frame with positive width, height and colours whose size is their product and
fits a 32-bit `int`, `Buffer(x, y)` for `x < width`, `y < height` is the address
`colours * (y * width + x)` bytes into the buffer; the `colours` bytes from there end within
the first `size` bytes; and the byte ranges of two different in-range coordinates do not
overlap. -/
theorem Buffer_layout (img : Image) (x y x2 y2 : Nat)
    (hw : 0 < img.width) (hh : 0 < img.height) (hc : 0 < img.colours)
    (hs : img.size = img.width * img.height * img.colours) (hfit : img.size < 2 ^ 31)
    (hx : (x : Int) < img.width) (hy : (y : Int) < img.height)
    (hx2 : (x2 : Int) < img.width) (hy2 : (y2 : Int) < img.height) :
    ((img.Buffer x y : Int) = img.buffer + img.colours * (y * img.width + x)) ∧
    (0 ≤ img.colours * (y * img.width + x)) ∧
    (img.colours * (y * img.width + x) + img.colours ≤ img.size) ∧
    ((x, y) ≠ (x2, y2) →
      img.Buffer x y + img.colours.toNat ≤ img.Buffer x2 y2 ∨
      img.Buffer x2 y2 + img.colours.toNat ≤ img.Buffer x y) := by
  obtain ⟨W, hW⟩ := Int.eq_ofNat_of_zero_le (le_of_lt hw)
  obtain ⟨H, hH⟩ := Int.eq_ofNat_of_zero_le (le_of_lt hh)
  obtain ⟨C, hC⟩ := Int.eq_ofNat_of_zero_le (le_of_lt hc)
  rw [hW] at hx hx2
  rw [hH] at hy hy2
  rw [hs, hW, hH, hC] at hfit
  have hfitN : W * H * C < 2 ^ 31 := by exact_mod_cast hfit
  have hxN : x < W := by exact_mod_cast hx
  have hyN : y < H := by exact_mod_cast hy
  have hx2N : x2 < W := by exact_mod_cast hx2
  have hy2N : y2 < H := by exact_mod_cast hy2
  have hCpos : 0 < C := by rw [hC] at hc; exact_mod_cast hc
  obtain ⟨hb, hin⟩ := Buffer_offset img W H C x y hW hC hCpos hfitN hxN hyN
  obtain ⟨hb2, -⟩ := Buffer_offset img W H C x2 y2 hW hC hCpos hfitN hx2N hy2N
  rw [hs, hW, hH, hC, hb, hb2]
  refine ⟨by push_cast; ring, by positivity, by exact_mod_cast hin, fun hne => ?_⟩
  simp only [Int.toNat_ofNat]
  rcases pixel_index_apart W x y x2 y2 hxN hx2N hne with h | h
  · left
    have h1 : C * (y * W + x + 1) ≤ C * (y2 * W + x2) := Nat.mul_le_mul_left C h
    have h2 : C * (y * W + x + 1) = C * (y * W + x) + C := by ring
    omega
  · right
    have h1 : C * (y2 * W + x2 + 1) ≤ C * (y * W + x) := Nat.mul_le_mul_left C h
    have h2 : C * (y2 * W + x2 + 1) = C * (y2 * W + x2) + C := by ring
    omega

theorem Buffer_layout_witness :
    ((({ sampleFrame 0 with width := 3, height := 2, colours := 3, size := 18, pixels := 6 }
        : Image).Buffer 2 1 : Nat) : Int) = 4096 + 3 * (1 * 3 + 2) ∧
    ({ sampleFrame 0 with width := 3, height := 2, colours := 3, size := 18, pixels := 6 }
        : Image).Buffer 2 1 = 4111 :=
  ⟨(Buffer_layout
      { sampleFrame 0 with width := 3, height := 2, colours := 3, size := 18, pixels := 6 }
      2 1 0 0 (by decide) (by decide) (by decide) (by decide) (by decide) (by decide)
      (by decide) (by decide) (by decide)).1,
    by decide⟩

/-! ## The edge comparator -/

theorem truncToInt_of_nonneg (q : ℚ) (h : 0 ≤ q) : truncToInt q = ⌊q⌋ := by
  unfold truncToInt
  rw [Rat.floor_def, Int.tdiv_eq_ediv (Rat.num_nonneg.mpr h) (by positivity)]

theorem truncToInt_neg (q : ℚ) : truncToInt (-q) = -truncToInt q := by
  unfold truncToInt
  rw [Rat.neg_num, Rat.neg_den, Int.neg_tdiv]

theorem truncToInt_of_nonpos (q : ℚ) (h : q ≤ 0) : truncToInt q = ⌈q⌉ := by
  have h1 := truncToInt_of_nonneg (-q) (by linarith)
  rw [truncToInt_neg, Int.floor_neg] at h1
  omega

theorem truncToInt_intCast (n : Int) : truncToInt (n : ℚ) = n := by
  rcases le_or_lt 0 n with h | h
  · rw [truncToInt_of_nonneg _ (by exact_mod_cast h), Int.floor_intCast]
  · rw [truncToInt_of_nonpos _ (by exact_mod_cast h.le), Int.ceil_intCast]

/-- The conversion to `int` is negative exactly from `-1` downwards. -/
theorem truncToInt_neg_iff (q : ℚ) : truncToInt q < 0 ↔ q ≤ -1 := by
  rcases le_or_lt 0 q with h | h
  · rw [truncToInt_of_nonneg q h]
    constructor
    · intro h1
      have := Int.floor_nonneg.mpr h
      omega
    · intro h1; linarith
  · rw [truncToInt_of_nonpos q h.le]
    constructor
    · intro h1
      have h2 : ⌈q⌉ ≤ -1 := by omega
      have := Int.ceil_le.mp h2
      simpa using this
    · intro h1
      have : ⌈q⌉ ≤ -1 := Int.ceil_le.mpr (by simpa using h1)
      omega

/-- The conversion to `int` is zero on the whole open interval from `-1` to `1`. -/
theorem truncToInt_eq_zero_iff (q : ℚ) : truncToInt q = 0 ↔ (-1 < q ∧ q < 1) := by
  rcases le_or_lt 0 q with h | h
  · rw [truncToInt_of_nonneg q h, Int.floor_eq_zero_iff]
    constructor
    · rintro ⟨_, h2⟩; exact ⟨by linarith, h2⟩
    · rintro ⟨_, h2⟩; exact ⟨h, h2⟩
  · rw [truncToInt_of_nonpos q h.le, Int.ceil_eq_iff]
    constructor
    · rintro ⟨h1, _⟩; constructor
      · simpa using h1
      · linarith
    · rintro ⟨h1, _⟩; constructor
      · simpa using h1
      · simpa using h.le

theorem wrapInt32_of_int32 (d : Int) (h : IsInt32 d) : wrapInt32 d = d := by
  unfold IsInt32 at h
  unfold wrapInt32
  rw [Int.emod_eq_of_lt (by omega) (by omega)]
  omega

/-- What `CompareYX` computes on two edges of the same row: it is negative exactly when the
first abscissa is smaller by `1` or more, and zero exactly when the abscissas differ by less
than `1`. -/
theorem CompareYX_same_row (e1 e2 : Edge) (h : e1.min_y = e2.min_y) :
    (e1.CompareYX e2 < 0 ↔ e1.min_x - e2.min_x ≤ -1) ∧
    (e1.CompareYX e2 = 0 ↔ (-1 < e1.min_x - e2.min_x ∧ e1.min_x - e2.min_x < 1)) := by
  unfold Edge.CompareYX
  rw [if_pos h]
  exact ⟨truncToInt_neg_iff _, truncToInt_eq_zero_iff _⟩

/-- On edges whose abscissas are whole numbers, and whose rows differ by a value an `int`
holds, `CompareYX` is the lexicographic comparison of `(min_y, min_x)`. -/
theorem CompareYX_whole_abscissas (e1 e2 : Edge) (n1 n2 : Int) (h1 : e1.min_x = n1)
    (h2 : e2.min_x = n2) (hd : IsInt32 (e1.min_y - e2.min_y)) :
    (e1.CompareYX e2 < 0 ↔
      (e1.min_y < e2.min_y ∨ (e1.min_y = e2.min_y ∧ e1.min_x < e2.min_x))) ∧
    (e1.CompareYX e2 = 0 ↔ (e1.min_y = e2.min_y ∧ e1.min_x = e2.min_x)) := by
  unfold Edge.CompareYX
  by_cases hy : e1.min_y = e2.min_y
  · have hsub : e1.min_x - e2.min_x = ((n1 - n2 : Int) : ℚ) := by rw [h1, h2]; push_cast; ring
    rw [if_pos hy, hsub, truncToInt_intCast, h1, h2]
    simp only [hy, lt_self_iff_false, true_and, false_or, Int.cast_lt, Int.cast_inj]
    constructor <;> constructor <;> intro h <;> omega
  · rw [if_neg hy, wrapInt32_of_int32 _ hd]
    simp only [hy, false_and, or_false, iff_false]
    constructor
    · constructor <;> intro h <;> omega
    · omega

/-- For every two edges one of the two comparisons is not positive. -/
theorem CompareYX_total (a b : Edge) : a.CompareYX b ≤ 0 ∨ b.CompareYX a ≤ 0 := by
  unfold Edge.CompareYX
  by_cases hy : a.min_y = b.min_y
  · rw [if_pos hy, if_pos hy.symm]
    have hneg : b.min_x - a.min_x = -(a.min_x - b.min_x) := by ring
    rw [hneg, truncToInt_neg]
    omega
  · rw [if_neg hy, if_neg (Ne.symm hy)]
    unfold wrapInt32
    omega

/-- C6 fails on the code: two edges of row `0` with abscissas `0` and `1/2`. The first pair
is lexicographically smaller and the pairs differ, yet `CompareYX` returns `0`, which is
neither negative nor the sign of equal pairs. -/
theorem CompareYX_half_apart :
    (edgeAt 0 0).CompareYX (edgeAt 0 (1 / 2)) = 0 ∧
    ¬ ((edgeAt 0 0).CompareYX (edgeAt 0 (1 / 2)) < 0) ∧
    ((edgeAt 0 0).min_y = (edgeAt 0 (1 / 2)).min_y ∧
      (edgeAt 0 0).min_x < (edgeAt 0 (1 / 2)).min_x) ∧
    ((edgeAt 0 0).min_y, (edgeAt 0 0).min_x)
      ≠ ((edgeAt 0 (1 / 2)).min_y, (edgeAt 0 (1 / 2)).min_x) := by
  decide!

/-- C7 fails on the code: three edges of row `0` with abscissas `3/2`, `3/4` and `0`. The
comparisons of the first with the second and of the second with the third return `0`, the
comparison of the first with the third returns `1`. -/
theorem CompareYX_not_transitive :
    (edgeAt 0 (3 / 2)).CompareYX (edgeAt 0 (3 / 4)) = 0 ∧
    (edgeAt 0 (3 / 4)).CompareYX (edgeAt 0 0) = 0 ∧
    (edgeAt 0 (3 / 2)).CompareYX (edgeAt 0 0) = 1 ∧
    ¬ (∀ a b c : Edge, a.CompareYX b ≤ 0 → b.CompareYX c ≤ 0 → a.CompareYX c ≤ 0) := by
  have hab : (edgeAt 0 (3 / 2)).CompareYX (edgeAt 0 (3 / 4)) = 0 := by decide!
  have hbc : (edgeAt 0 (3 / 4)).CompareYX (edgeAt 0 0) = 0 := by decide!
  have hac : (edgeAt 0 (3 / 2)).CompareYX (edgeAt 0 0) = 1 := by decide!
  refine ⟨hab, hbc, hac, fun h => ?_⟩
  have := h _ _ _ (le_of_eq hab) (le_of_eq hbc)
  rw [hac] at this
  omega

end ZmImage
